import Mathlib

/-!
Shallow embedding of the scheduling core of the flow-shop-scheduling
repository (files `src/model_data.py`, `src/job_shop_scheduler.py`,
`src/generate_charts.py`), together with theorems settling the frozen
claims about its natural-language specification.

Python integers are modelled as `Int` (or `Nat` where the source only
ever produces non-negative values), Python lists as `List`, the
insertion-ordered dict `_job_tasks` as an association list, and Python
exceptions as an explicit error type threaded through `Except` or
returned next to the partially mutated state.
-/

namespace JSS

/-- The Python exceptions raised by the embedded code.  `ValueError`
messages are represented structurally: `invalidDuration` and
`invalidPosition` are the two `ValueError`s of `JobShopData.add_task`,
`jobAlreadyPresent` the one of `add_job`, `resourceNotInDataset` and
`jobNotInDataset` the "not in dataset" `ValueError`s of
`get_resource_job_tasks`, `indexError` the `IndexError` of `[...][0]`
on an empty list, and `maxOfEmpty` / `minOfEmpty` the `ValueError`s of
Python `max([])` / `min([])`. -/
inductive PyError where
  | invalidDuration (d : Int)
  | invalidPosition (p : Int)
  | jobAlreadyPresent (j : String)
  | resourceNotInDataset (r : String)
  | jobNotInDataset (j : String)
  | indexError
  | maxOfEmpty
  | minOfEmpty
deriving DecidableEq

/-- The spec's `NotFoundError` designates the "not in dataset"
`ValueError`s of the data model ("Operation {resource} not in dataset",
"Job {job} not in dataset"). -/
def PyError.isNotFound : PyError → Bool
  | .resourceNotInDataset _ => true
  | .jobNotInDataset _ => true
  | _ => false

/-- `Task` from `src/model_data.py`: a `(job, resource, duration)`
unit of processing. -/
structure Task where
  job : String
  resource : String
  duration : Int
deriving DecidableEq, Inhabited, Repr

/-- `JobShopData` from `src/model_data.py`: `_jobs` and `_resources`
are Python sets (modelled as lists with `∈` membership), `_job_tasks`
an insertion-ordered dict from job name to its ordered task list. -/
structure JobShopData where
  jobs : List String
  resources : List String
  job_tasks : List (String × List Task)
deriving DecidableEq, Inhabited, Repr

/-- `self._job_tasks[job]`, defaulting to `[]` when the key is absent
(the Python code only indexes present keys). -/
def jobTaskList (d : JobShopData) (job : String) : List Task :=
  (d.job_tasks.lookup job).getD []

/-- `JobShopData.get_tasks`: all tasks, flattened in dict order. -/
def get_tasks (d : JobShopData) : List Task :=
  d.job_tasks.flatMap (fun job_tasks => job_tasks.2)

/-- `JobShopData.add_resource`: `self._resources.add(resource)`
(Python set add: a no-op when already present). -/
def add_resource (d : JobShopData) (resource : String) : JobShopData :=
  if resource ∈ d.resources then d
  else { d with resources := d.resources ++ [resource] }

/-- `JobShopData.add_job`: raises `ValueError` if the job is already in
the dataset, otherwise registers it with an empty task list. -/
def add_job (d : JobShopData) (job : String) : JobShopData × Option PyError :=
  if job ∈ d.jobs then (d, some (.jobAlreadyPresent job))
  else ({ d with jobs := d.jobs ++ [job], job_tasks := d.job_tasks ++ [(job, [])] }, none)

/-- Python `list.insert(i, x)` (clamps an index past the end). -/
def list_insert {α : Type} (l : List α) (i : Nat) (x : α) : List α :=
  match l, i with
  | l, 0 => x :: l
  | [], _ + 1 => [x]
  | y :: ys, i + 1 => y :: list_insert ys i x

/-- Replace the task list stored under `job` (the in-place
`self._job_tasks[task.job].insert(position, task)`). -/
def set_job_tasks (d : JobShopData) (job : String) (l : List Task) : JobShopData :=
  { d with job_tasks := d.job_tasks.map (fun p => if p.1 = job then (p.1, l) else p) }

/-- The first two steps of `JobShopData.add_task` (lines 168–172):
`if task.resource not in self._resources: self.add_resource(...)` and
`if task.job not in self._jobs: self.add_job(...)`.  These mutations
run before any validity check. -/
def register_for_task (d : JobShopData) (task : Task) : JobShopData :=
  let d1 := if task.resource ∈ d.resources then d else add_resource d task.resource
  if task.job ∈ d1.jobs then d1 else (add_job d1 task.job).1

/-- `JobShopData.add_task`: auto-registers an unknown resource and job,
then raises `ValueError` if the duration is negative, resolves a `None`
position to the end of the job's list, raises `ValueError` if the
position is negative, and finally inserts the task.  Returned as the
final state of the mutated object next to the raised error (if any):
the registrations happen before the validity checks, exactly as in the
source. -/
def add_task (d : JobShopData) (task : Task) (position : Option Int) :
    JobShopData × Option PyError :=
  let d2 := register_for_task d task
  if task.duration < 0 then (d2, some (.invalidDuration task.duration))
  else
    let pos : Int := match position with
      | none => ((jobTaskList d2 task.job).length : Int)
      | some p => p
    if pos < 0 then (d2, some (.invalidPosition pos))
    else
      (set_job_tasks d2 task.job
        (list_insert (jobTaskList d2 task.job) pos.toNat task), none)

/-- `JobShopData.get_resource_job_tasks`: checks that the resource and
the job are registered (raising the "not in dataset" `ValueError`s),
then evaluates `[task for task in self._job_tasks[job] if
task.resource == resource][0]`; indexing an empty comprehension raises
`IndexError`. -/
def get_resource_job_tasks (d : JobShopData) (resource job : String) :
    Except PyError Task :=
  if resource ∉ d.resources then .error (.resourceNotInDataset resource)
  else if job ∉ d.jobs then .error (.jobNotInDataset job)
  else
    match (jobTaskList d job).filter (fun task => task.resource = resource) with
    | [] => .error .indexError
    | task :: _ => .ok task

/-- `JobShopData.get_task_time_bounds`.  The Python method receives the
task object; `self.get_task_position(task)` is `list.index` on the
job's own list and, `Task` having identity equality, returns the
object's position, which is passed here as `p`.  The remaining steps
are verbatim: filter all tasks down to the task's job, split at the
position, and sum durations. -/
def get_task_time_bounds (d : JobShopData) (t : Task) (p : Nat) (make_span : Int) :
    Int × Int :=
  let job_tasks := (get_tasks d).filter (fun x => x.job = t.job)
  let prior_tasks := job_tasks.take p
  let subsequent_tasks := job_tasks.drop (p + 1)
  let prior_time := (prior_tasks.map Task.duration).sum
  let subsequent_time := (subsequent_tasks.map Task.duration).sum
  (prior_time, make_span - subsequent_time - t.duration)

/-- Well-formedness of `JobShopData`, maintained by the mutation API:
every stored task names the job it is filed under, and the dict keys
are distinct. -/
def WF (d : JobShopData) : Prop :=
  (∀ p ∈ d.job_tasks, ∀ t ∈ p.2, Task.job t = p.1) ∧
  (d.job_tasks.map Prod.fst).Nodup

/-- Python `max(l)` for a list of ints: `ValueError` on `[]`. -/
def pymax (l : List Int) : Except PyError Int :=
  match l with
  | [] => .error .maxOfEmpty
  | x :: xs => .ok (xs.foldl max x)

/-- Python `min(l)` for a list of ints: `ValueError` on `[]`. -/
def pymin (l : List Int) : Except PyError Int :=
  match l with
  | [] => .error .minOfEmpty
  | x :: xs => .ok (xs.foldl min x)

/-- Total variant of `pymax` (value of `max` on a non-empty list). -/
def pymaxD (l : List Int) : Int :=
  match l with
  | [] => 0
  | x :: xs => xs.foldl max x

/-- Modelled from the spec: `GreedyJobShop` (`utils/greedy.py`) is not
part of the sources; per spec §4.2 each run of the greedy dispatching
simulation assigns every task of the instance a start and finish time,
with random tie-breaking drawn from process-global randomness.  A run
is therefore modelled as the list of finish times it produces, one per
task of the instance — `[v[1] for v in task_assignments.values()]` —
and the ambient randomness as the stream `runs` of run outcomes.  No
seed parameter exists anywhere in `generate_greedy_makespan` or
`GreedyJobShop`'s call site. -/
def validGreedyRun (d : JobShopData) (run : List Int) : Prop :=
  run.length = (get_tasks d).length

/-- The loop body accumulator of `generate_greedy_makespan`: the
`solutions` list after `n` iterations, each iteration appending
`max([v[1] for v in task_assignments.values()])` for its run (and
propagating the `ValueError` of `max([])`). -/
def greedy_solutions (runs : Nat → List Int) : Nat → Except PyError (List Int)
  | 0 => .ok []
  | n + 1 =>
      match greedy_solutions runs n with
      | .error e => .error e
      | .ok prev =>
          match pymax (runs n) with
          | .error e => .error e
          | .ok m => .ok (prev ++ [m])

/-- `generate_greedy_makespan` from `src/job_shop_scheduler.py`: run
the greedy simulation `num_samples` times, record each run's largest
finish time, and return the minimum over the runs. -/
def generate_greedy_makespan (runs : Nat → List Int) (num_samples : Nat) :
    Except PyError Int :=
  match greedy_solutions runs num_samples with
  | .error e => .error e
  | .ok solutions => pymin solutions

/-- Line 90 of `src/job_shop_scheduler.py`:
`self.max_makespan = max_makespan or generate_greedy_makespan(model_data) * greedy_multiplier`.
Python `or` discards a falsy left operand (`None` or `0`); the
multiplier is a float, modelled as a rational, and `__init__` calls
`generate_greedy_makespan` with its default `num_samples = 100`. -/
def init_max_makespan (max_makespan : Option Int) (runs : Nat → List Int)
    (greedy_multiplier : Rat) : Except PyError Rat :=
  match max_makespan with
  | some v =>
      if v = 0 then
        match generate_greedy_makespan runs 100 with
        | .error e => .error e
        | .ok g => .ok ((g : Rat) * greedy_multiplier)
      else .ok ((v : Rat))
  | none =>
      match generate_greedy_makespan runs 100 with
      | .error e => .error e
      | .ok g => .ok ((g : Rat) * greedy_multiplier)

/-- Total variant of `pymin` (value of `min` on a non-empty list). -/
def pyminD (l : List Int) : Int :=
  match l with
  | [] => 0
  | x :: xs => xs.foldl min x

/-- The per-run best makespans observed by `generate_greedy_makespan`
(`solutions` in the source): for sample `k`, the largest finish time of
run `k`. -/
def observed_makespans (runs : Nat → List Int) (n : Nat) : List Int :=
  (List.range n).map (fun k => pymaxD (runs k))

/-- `best_greedy = min(solutions)` in the source, as a total value. -/
def best_greedy (runs : Nat → List Int) (n : Nat) : Int :=
  pyminD (observed_makespans runs n)

/-- A disjunctive big-M constraint added by
`JobShopSchedulingModel.add_disjunctive_constraints`.
`d1 j k i dk V` stands for the inequality
`x[j,i] - x[k,i] - dk + y[j,k,i]*V >= 0` (label `disjunction1…`) and
`d2 j k i dj V` for `x[k,i] - x[j,i] - dj + (1 - y[j,k,i])*V >= 0`
(label `disjunction2…`); the constant `V` recorded in the constraint
is `self.max_makespan` at build time. -/
inductive DisjConstr where
  | d1 (j k i : Nat) (dk V : Int)
  | d2 (j k i : Nat) (dj V : Int)
deriving DecidableEq

/-- Satisfaction of a disjunctive constraint by an assignment of the
integer start variables `x[j,i]` and binary variables `y[j,k,i]`. -/
def evalDisj (x : Nat → Nat → Int) (y : Nat → Nat → Nat → Int) : DisjConstr → Prop
  | .d1 j k i dk V => x j i - x k i - dk + y j k i * V ≥ 0
  | .d2 j k i dj V => x k i - x j i - dj + (1 - y j k i) * V ≥ 0

/-- `JobShopSchedulingModel.add_disjunctive_constraints`: for every
ordered pair of jobs with `j < k` and every resource `i`, append the
two constraints with `V = self.max_makespan`, `dk` the duration of
`get_resource_job_tasks(job=k, resource=i)` and `dj` that of job `j`
on `i` (here supplied by the duration table `dur`). -/
def add_disjunctive_constraints (jobs resources : List Nat)
    (dur : Nat → Nat → Int) (max_makespan : Int) : List DisjConstr :=
  jobs.flatMap (fun j =>
    jobs.flatMap (fun k =>
      if j < k then
        resources.flatMap (fun i =>
          [DisjConstr.d1 j k i (dur k i) max_makespan,
           DisjConstr.d2 j k i (dur j i) max_makespan])
      else []))

/-- Time overlap of two scheduled operations, `[s, s + d)` interval
intersection as used throughout the spec:
`max(start) < min(finish)`. -/
def overlaps (s1 e1 s2 e2 : Int) : Prop :=
  max s1 s2 < min (s1 + e1) (s2 + e2)

/-- A row of the `task_data` built by
`get_minimum_task_times` in `src/generate_charts.py`: job label,
`Start`, `Finish`, resource (the `Operation` colour label), and the
`Conflicts` field (`"Yes"`/`"No"`, modelled as `Bool`). -/
structure SRow where
  job : String
  start : Int
  finish : Int
  resource : String
  conflicts : Bool
deriving DecidableEq, Inhabited, Repr

/-- The row-generation loop of `get_minimum_task_times`: one job's
tasks are laid out serially (`start_time = 0`, each task spanning
`[start_time, start_time + duration)`), every row starting with
`Conflicts = "No"`. -/
def job_rows (tasks : List Task) (start_time : Int) : List SRow :=
  match tasks with
  | [] => []
  | t :: rest =>
      { job := t.job, start := start_time, finish := start_time + t.duration,
        resource := t.resource, conflicts := false }
        :: job_rows rest (start_time + t.duration)

/-- All rows of `task_data`, in `job_tasks.values()` order. -/
def build_task_data (job_tasks : List (String × List Task)) : List SRow :=
  job_tasks.flatMap (fun p => job_rows p.2 0)

/-- `tasks_overlap` from `get_minimum_task_times`:
`interval_a, interval_b = sorted(((si, fi), (sj, fj)))` (tuples
compared lexicographically) followed by `interval_b[0] < interval_a[1]`. -/
def tasks_overlap (si fi sj fj : Int) : Bool :=
  if si < sj ∨ (si = sj ∧ fi ≤ fj) then decide (sj < fi) else decide (si < fj)

/-- One iteration of the conflict-marking double loop: for the index
pair `(i, j)`, if both rows share a resource and `tasks_overlap` holds,
both rows' `Conflicts` fields are set to `"Yes"`. -/
def apply_pair (rows : List SRow) (i j : Nat) : List SRow :=
  match rows[i]?, rows[j]? with
  | some ri, some rj =>
      if ri.resource = rj.resource ∧
          tasks_overlap ri.start ri.finish rj.start rj.finish = true then
        (rows.set i { ri with conflicts := true }).set j { rj with conflicts := true }
      else rows
  | _, _ => rows

/-- The conflict-marking double loop of `get_minimum_task_times`:
`for i, task_i in enumerate(task_data): for j, task_j in
enumerate(task_data[i + 1:]): …`, mutating `task_data` in place. -/
def calculate_conflicts (rows : List SRow) : List SRow :=
  (List.range rows.length).foldl
    (fun acc i =>
      (List.range (rows.length - (i + 1))).foldl
        (fun acc2 dj => apply_pair acc2 i (i + 1 + dj)) acc)
    rows

/-- `get_minimum_task_times` (row generation plus conflict marking;
the trailing DataFrame formatting — `delta` column and string casts —
is presentation only). -/
def get_minimum_task_times (job_tasks : List (String × List Task)) : List SRow :=
  calculate_conflicts (build_task_data job_tasks)

/-- Proof-side view of the double loop: the flat list of index pairs
it visits, in visiting order. -/
def all_pairs (n : Nat) : List (Nat × Nat) :=
  (List.range n).flatMap (fun i =>
    (List.range (n - (i + 1))).map (fun dj => (i, i + 1 + dj)))

/-- Proof-side: folding `apply_pair` over an arbitrary list of index
pairs. -/
def foldPairs (rows : List SRow) (ps : List (Nat × Nat)) : List SRow :=
  ps.foldl (fun acc p => apply_pair acc p.1 p.2) rows

/-- Proof-side: the condition under which the pair `(i, j)` triggers
marking, phrased against a fixed row list. -/
def pairCond (rows : List SRow) (i j : Nat) : Prop :=
  i < rows.length ∧ j < rows.length ∧
  (rows.getD i default).resource = (rows.getD j default).resource ∧
  tasks_overlap (rows.getD i default).start (rows.getD i default).finish
    (rows.getD j default).start (rows.getD j default).finish = true

/-- Proof-side: every field of a row except the `Conflicts` flag. -/
def shape (r : SRow) : String × Int × Int × String :=
  (r.job, r.start, r.finish, r.resource)

/-- `times[m, :][j]`: entry of the processing-time matrix (machine
`m`, column `j`), out-of-range reads defaulting to 0 (the source never
reads out of range). -/
def tA (times : List (List Nat)) (m j : Nat) : Nat :=
  (times.getD m []).getD j 0

/-- `order[j]`: entry of the solver's job permutation. -/
def ordA (order : List Nat) (j : Nat) : Nat :=
  order.getD j 0

/-- One iteration of the inner (`job_j`) loop of
`JobShopSchedulingModel._calculate_end_times`, appending the end time
of the `j`-th job in `order` on machine `m` to `machine_m_times`:
- `machine_m == 0, job_j == 0`: `times[0, :][order[0]]`;
- `machine_m == 0, job_j > 0`: `times[0, :][order[j]] +
  machine_m_times[-1]`;
- `machine_m > 0, job_j == 0`: `end_times[machine_m - 1][0] +
  times[m, :][order[0]]`;
- `machine_m > 0, job_j > 0`: `max(end_times[machine_m - 1][j],
  machine_m_times[-1]) + times[m, :][order[j]]`. -/
def fss_job_step (times : List (List Nat)) (order : List Nat)
    (end_times : List (List Nat)) (m : Nat) (machine_m_times : List Nat)
    (j : Nat) : List Nat :=
  if m = 0 then
    if j = 0 then machine_m_times ++ [tA times m (ordA order j)]
    else machine_m_times ++ [tA times m (ordA order j) + machine_m_times.getLastD 0]
  else
    if j = 0 then
      machine_m_times ++
        [(end_times.getD (m - 1) []).getD j 0 + tA times m (ordA order j)]
    else
      machine_m_times ++
        [max ((end_times.getD (m - 1) []).getD j 0) (machine_m_times.getLastD 0)
          + tA times m (ordA order j)]

/-- The inner loop of `_calculate_end_times` run for the first `n`
values of `job_j` (`machine_m_times` built from `[]`). -/
def fss_row_upto (times : List (List Nat)) (order : List Nat)
    (end_times : List (List Nat)) (m n : Nat) : List Nat :=
  (List.range n).foldl (fss_job_step times order end_times m) []

/-- The outer (`machine_m`) loop of `_calculate_end_times` run for the
first `k` machines: each iteration appends the machine's
`machine_m_times` row (the inner loop over `num_jobs = len(times[0])`
jobs) to `end_times`. -/
def fss_upto (times : List (List Nat)) (order : List Nat) (k : Nat) :
    List (List Nat) :=
  (List.range k).foldl
    (fun end_times m =>
      end_times ++ [fss_row_upto times order end_times m ((times.headD []).length)])
    []

/-- `JobShopSchedulingModel._calculate_end_times`: the full end-time
matrix, `num_machines = len(times)` rows. -/
def calculate_end_times (times : List (List Nat)) (order : List Nat) :
    List (List Nat) :=
  fss_upto times order times.length

/-- Entry `end_times[m][j]` of the computed end-time matrix. -/
def fss_entry (times : List (List Nat)) (order : List Nat) (m j : Nat) : Nat :=
  ((calculate_end_times times order).getD m []).getD j 0

theorem foldl_min_le_init (xs : List Int) (a : Int) : xs.foldl min a ≤ a := by
  induction xs generalizing a with
  | nil => exact le_refl a
  | cons x xs ih => exact le_trans (ih (min a x)) (min_le_left a x)

theorem foldl_min_le_mem (xs : List Int) : ∀ (a b : Int), b ∈ xs →
    xs.foldl min a ≤ b := by
  induction xs with
  | nil => intro a b hb; cases hb
  | cons x xs ih =>
    intro a b hb
    rcases List.mem_cons.mp hb with h | h
    · subst h
      exact le_trans (foldl_min_le_init xs (min a b)) (min_le_right a b)
    · exact ih (min a x) b h

theorem foldl_min_mem (xs : List Int) (a : Int) :
    xs.foldl min a = a ∨ xs.foldl min a ∈ xs := by
  induction xs generalizing a with
  | nil => left; rfl
  | cons x xs ih =>
    rcases ih (min a x) with h | h
    · rcases min_choice a x with hc | hc
      · left; rw [List.foldl_cons, h, hc]
      · right; rw [List.foldl_cons, h, hc]; exact List.mem_cons_self x xs
    · right; exact List.mem_cons_of_mem x h

theorem pymax_ok (l : List Int) (h : l ≠ []) : pymax l = .ok (pymaxD l) := by
  cases l with
  | nil => exact absurd rfl h
  | cons x xs => rfl

theorem pymin_ok (l : List Int) (h : l ≠ []) : pymin l = .ok (pyminD l) := by
  cases l with
  | nil => exact absurd rfl h
  | cons x xs => rfl

theorem pyminD_mem (l : List Int) (h : l ≠ []) : pyminD l ∈ l := by
  cases l with
  | nil => exact absurd rfl h
  | cons x xs =>
    rcases foldl_min_mem xs x with h1 | h1
    · rw [pyminD, h1]; exact List.mem_cons_self x xs
    · exact List.mem_cons_of_mem x h1

theorem pyminD_le (l : List Int) (b : Int) (hb : b ∈ l) : pyminD l ≤ b := by
  cases l with
  | nil => cases hb
  | cons x xs =>
    rcases List.mem_cons.mp hb with h | h
    · rw [h]
      simpa [pyminD] using foldl_min_le_init xs x
    · exact foldl_min_le_mem xs x b h

theorem greedy_solutions_ok (runs : Nat → List Int) (n : Nat)
    (h : ∀ k, k < n → runs k ≠ []) :
    greedy_solutions runs n = .ok (observed_makespans runs n) := by
  induction n with
  | zero => rfl
  | succ n ih =>
    have h1 : greedy_solutions runs n = .ok (observed_makespans runs n) :=
      ih (fun k hk => h k (Nat.lt_succ_of_lt hk))
    rw [greedy_solutions, h1, pymax_ok _ (h n (Nat.lt_succ_self n))]
    simp [observed_makespans, List.range_succ]

/-- C4: when no explicit `max_makespan` is supplied, the bound used to
size variable domains is the minimum makespan observed across the 100
greedy-dispatch runs (`num_samples` defaults to 100 and `__init__`
calls `generate_greedy_makespan` with that default) multiplied by the
caller-supplied `greedy_multiplier`: `best_greedy` both belongs to the
observed per-run makespans and is a lower bound on all of them. -/
theorem c4_greedy_bound (runs : Nat → List Int) (mult : Rat)
    (h : ∀ k, k < 100 → runs k ≠ []) :
    init_max_makespan none runs mult = .ok ((best_greedy runs 100 : Rat) * mult) ∧
    best_greedy runs 100 ∈ observed_makespans runs 100 ∧
    ∀ x ∈ observed_makespans runs 100, best_greedy runs 100 ≤ x := by
  have hobs : observed_makespans runs 100 ≠ [] := by
    simp [observed_makespans, List.map_eq_nil_iff, List.range_eq_nil]
  have hgen : generate_greedy_makespan runs 100 = .ok (best_greedy runs 100) := by
    rw [generate_greedy_makespan, greedy_solutions_ok runs 100 h]
    exact pymin_ok _ hobs
  refine ⟨?_, pyminD_mem _ hobs, fun x hx => pyminD_le _ x hx⟩
  show (match generate_greedy_makespan runs 100 with
    | Except.error e => Except.error e
    | Except.ok g => Except.ok ((g : Rat) * mult))
      = Except.ok ((best_greedy runs 100 : Rat) * mult)
  rw [hgen]

theorem c4_greedy_bound_witness :
    init_max_makespan none (fun _ => [3, 7]) 1
      = .ok ((best_greedy (fun _ => [3, 7]) 100 : Rat) * 1) :=
  (c4_greedy_bound (fun _ => [3, 7]) 1 (fun _ _ => List.cons_ne_nil 3 [7])).1

/-- C8 (amended): on an instance with zero operations the greedy bound
estimation does not succeed: every valid greedy run is empty, so
`max([v[1] for v in task_assignments.values()])` raises `ValueError`
(`max()` of an empty sequence) in the first loop iteration, and
`run_shop_scheduler` propagates the exception instead of returning an
empty schedule. -/
theorem generate_error_of_empty_runs (runs : Nat → List Int) (n : Nat)
    (hn : 0 < n) (hempty : ∀ k, runs k = []) :
    generate_greedy_makespan runs n = .error .maxOfEmpty := by
  have key : ∀ m, greedy_solutions runs (m + 1) = .error .maxOfEmpty := by
    intro m
    induction m with
    | zero => simp [greedy_solutions, hempty 0, pymax]
    | succ m ih => rw [greedy_solutions, ih]
  obtain ⟨m, rfl⟩ := Nat.exists_eq_succ_of_ne_zero (Nat.pos_iff_ne_zero.mp hn)
  rw [generate_greedy_makespan, key m]

theorem c8_zero_ops_raises (d : JobShopData) (runs : Nat → List Int) (n : Nat)
    (hn : 0 < n) (hd : get_tasks d = [])
    (hruns : ∀ k, validGreedyRun d (runs k)) :
    generate_greedy_makespan runs n = .error .maxOfEmpty := by
  refine generate_error_of_empty_runs runs n hn ?_
  intro k
  have hk := hruns k
  rw [validGreedyRun, hd] at hk
  exact List.length_eq_zero.mp hk

theorem c8_zero_ops_raises_witness :
    generate_greedy_makespan (fun _ => []) 1 = .error .maxOfEmpty :=
  c8_zero_ops_raises ⟨[], [], []⟩ (fun _ => []) 1 (by decide) rfl (fun _ => rfl)

/-- C8 counterexample: for the zero-operation instance (whose only
valid greedy run outcome is the empty assignment), the bound
estimation performed by `JobShopSchedulingModel.__init__` with the
default 100 samples raises instead of succeeding, so the end-to-end
run cannot return an empty schedule. -/
theorem c8_counterexample_empty_instance :
    validGreedyRun ⟨[], [], []⟩ [] ∧
    generate_greedy_makespan (fun _ => []) 100 = .error .maxOfEmpty :=
  ⟨rfl, generate_error_of_empty_runs (fun _ => []) 100 (by decide) (fun _ => rfl)⟩

theorem greedy_solutions_congr (runs1 runs2 : Nat → List Int) (n : Nat)
    (h : ∀ k, k < n → runs1 k = runs2 k) :
    greedy_solutions runs1 n = greedy_solutions runs2 n := by
  induction n with
  | zero => rfl
  | succ n ih =>
    have h1 := ih (fun k hk => h k (Nat.lt_succ_of_lt hk))
    rw [greedy_solutions, greedy_solutions, h1, h n (Nat.lt_succ_self n)]

/-- C9 (amended): `generate_greedy_makespan` has no seed parameter;
its result is determined by the instance-derived run outcomes and the
sample count alone.  Calls agreeing on the first `samples` ambient run
outcomes return identical bounds (after the multiplier is applied). -/
theorem c9_deterministic_in_runs (runs1 runs2 : Nat → List Int) (samples : Nat)
    (mult : Rat) (h : ∀ k, k < samples → runs1 k = runs2 k) :
    (generate_greedy_makespan runs1 samples).map (fun g => (g : Rat) * mult)
      = (generate_greedy_makespan runs2 samples).map (fun g => (g : Rat) * mult) := by
  unfold generate_greedy_makespan
  rw [greedy_solutions_congr runs1 runs2 samples h]

theorem c9_deterministic_in_runs_witness :
    (generate_greedy_makespan (fun k => if k < 2 then [4] else [9]) 2).map
        (fun g => (g : Rat) * 2)
      = (generate_greedy_makespan (fun _ => [4]) 2).map (fun g => (g : Rat) * 2) :=
  c9_deterministic_in_runs (fun k => if k < 2 then [4] else [9]) (fun _ => [4]) 2 2
    (fun k hk => by simp [hk])

/-- C9 counterexample: two calls with the identical instance, sample
count, and multiplier (there is no seed input to hold fixed) return
different bounds when the ambient randomness of the greedy runs
differs, so the estimator is not deterministic in the claimed
inputs. -/
theorem c9_counterexample_no_seed :
    generate_greedy_makespan (fun _ => [1]) 1 = .ok 1 ∧
    generate_greedy_makespan (fun _ => [2]) 1 = .ok 2 := by
  exact ⟨rfl, rfl⟩

/-- C10: an explicit `max_makespan` of 0 is falsy for Python `or`, so
it is discarded: the bound is recomputed from the greedy makespan and
the multiplier exactly as when `max_makespan` is omitted. -/
theorem c10_falsy_makespan_recomputed (runs : Nat → List Int) (mult : Rat) :
    init_max_makespan (some 0) runs mult = init_max_makespan none runs mult ∧
    ∀ g : Int, generate_greedy_makespan runs 100 = .ok g →
      init_max_makespan (some 0) runs mult = .ok ((g : Rat) * mult) := by
  constructor
  · rfl
  · intro g hg
    show (match generate_greedy_makespan runs 100 with
      | Except.error e => Except.error e
      | Except.ok g => Except.ok ((g : Rat) * mult))
        = Except.ok ((g : Rat) * mult)
    rw [hg]

set_option maxRecDepth 8000 in
theorem c10_falsy_makespan_recomputed_witness :
    init_max_makespan (some 0) (fun _ => [5]) 2 = .ok (((5 : Int) : Rat) * 2) :=
  (c10_falsy_makespan_recomputed (fun _ => [5]) 2).2 5 rfl

theorem filter_flatMap_assoc (l : List (String × List Task)) (job : String)
    (ts : List Task)
    (hlab : ∀ p ∈ l, ∀ t ∈ p.2, Task.job t = p.1)
    (hnd : (l.map Prod.fst).Nodup)
    (hmem : (job, ts) ∈ l) :
    (l.flatMap (fun p => p.2)).filter (fun x => decide (x.job = job)) = ts := by
  induction l with
  | nil => cases hmem
  | cons p l ih =>
    rw [List.flatMap_cons, List.filter_append]
    rw [List.map_cons, List.nodup_cons] at hnd
    rcases List.mem_cons.mp hmem with h | h
    · have hp1 : p.1 = job := by rw [← h]
      have h2 : p.2 = ts := by rw [← h]
      have hfull : p.2.filter (fun x => decide (x.job = job)) = p.2 :=
        List.filter_eq_self.mpr (fun t ht => by
          simp [hlab p (List.mem_cons_self p l) t ht, hp1])
      have hrest : (l.flatMap (fun q => q.2)).filter
          (fun x => decide (x.job = job)) = [] := by
        refine List.filter_eq_nil_iff.mpr (fun t ht => ?_)
        rcases List.mem_flatMap.mp ht with ⟨q, hq, htq⟩
        have hqj : Task.job t = q.1 := hlab q (List.mem_cons_of_mem p hq) t htq
        have : q.1 ≠ job := by
          intro hc
          exact hnd.1 (by rw [← hp1] at hc; exact hc ▸ List.mem_map_of_mem Prod.fst hq)
        simp [hqj, this]
      rw [hfull, hrest, h2, List.append_nil]
    · have hjob_mem : job ∈ l.map Prod.fst := by
        rcases List.mem_map.mpr ⟨(job, ts), h, rfl⟩ with hm
        exact hm
      have hp1 : p.1 ≠ job := fun hc => hnd.1 (hc ▸ hjob_mem)
      have hhead : p.2.filter (fun x => decide (x.job = job)) = [] := by
        refine List.filter_eq_nil_iff.mpr (fun t ht => ?_)
        simp [hlab p (List.mem_cons_self p l) t ht, hp1]
      rw [hhead, List.nil_append]
      exact ih (fun q hq => hlab q (List.mem_cons_of_mem p hq)) hnd.2 h

/-- C2: for a registered task `t` sitting at position `p` of its job's
task sequence `ts` (Python `list.index` on the task object returns this
position), `get_task_time_bounds` returns the pair made of the sum of
durations of the tasks strictly before `t` in its job and of the
makespan bound minus the durations strictly after `t` minus `t`'s own
duration. -/
theorem c2_task_time_bounds (d : JobShopData) (job : String) (ts : List Task)
    (t : Task) (p : Nat) (B : Int)
    (hwf : WF d) (hmem : (job, ts) ∈ d.job_tasks)
    (hp : p < ts.length) (ht : ts.getD p default = t) (hjob : t.job = job) :
    get_task_time_bounds d t p B
      = (((ts.take p).map Task.duration).sum,
         B - ((ts.drop (p + 1)).map Task.duration).sum - t.duration) := by
  have hfil : (get_tasks d).filter (fun x => decide (x.job = t.job)) = ts := by
    rw [hjob]
    exact filter_flatMap_assoc _ job ts hwf.1 hwf.2 hmem
  simp only [get_task_time_bounds, hfil]

theorem c2_task_time_bounds_witness :
    get_task_time_bounds
        (⟨["0"], ["r1", "r2", "r3"],
          [("0", [⟨"0", "r1", 3⟩, ⟨"0", "r2", 2⟩, ⟨"0", "r3", 4⟩])]⟩ : JobShopData)
        ⟨"0", "r2", 2⟩ 1 20
      = ((([⟨"0", "r1", 3⟩, ⟨"0", "r2", 2⟩,
            (⟨"0", "r3", 4⟩ : Task)].take 1).map Task.duration).sum,
         20 - (([⟨"0", "r1", 3⟩, ⟨"0", "r2", 2⟩,
            (⟨"0", "r3", 4⟩ : Task)].drop 2).map Task.duration).sum - 2) :=
  c2_task_time_bounds _ "0" _ _ 1 20 ⟨by decide, by decide⟩ (by decide) (by decide)
    (by decide) rfl

theorem lookup_append_getD (l : List (String × List Task)) (jb j : String) :
    (((l ++ [(jb, [])]).lookup j).getD []) = ((l.lookup j).getD []) := by
  induction l with
  | nil =>
    by_cases h : j = jb
    · subst h; simp [List.lookup]
    · have hb : (j == jb) = false := beq_eq_false_iff_ne.mpr h
      simp [List.lookup, hb]
  | cons p l ih =>
    by_cases h : j = p.1
    · have hb : (j == p.1) = true := beq_iff_eq.mpr h
      simp [List.lookup, hb]
    · have hb : (j == p.1) = false := beq_eq_false_iff_ne.mpr h
      simp [List.lookup, hb, ih]

theorem get_tasks_add_resource (d : JobShopData) (r : String) :
    get_tasks (add_resource d r) = get_tasks d := by
  unfold add_resource
  split_ifs <;> rfl

theorem jobTaskList_add_resource (d : JobShopData) (r j : String) :
    jobTaskList (add_resource d r) j = jobTaskList d j := by
  unfold add_resource
  split_ifs <;> rfl

theorem get_tasks_add_job_fst (d : JobShopData) (jb : String) :
    get_tasks (add_job d jb).1 = get_tasks d := by
  unfold add_job
  split_ifs with h
  · rfl
  · simp [get_tasks]

theorem jobTaskList_add_job_fst (d : JobShopData) (jb j : String) :
    jobTaskList (add_job d jb).1 j = jobTaskList d j := by
  unfold add_job
  split_ifs with h
  · rfl
  · exact lookup_append_getD d.job_tasks jb j

theorem get_tasks_register (d : JobShopData) (task : Task) :
    get_tasks (register_for_task d task) = get_tasks d := by
  simp only [register_for_task]
  by_cases h1 : task.resource ∈ d.resources
  · simp only [if_pos h1]
    by_cases h2 : task.job ∈ d.jobs
    · simp only [if_pos h2]
    · simp only [if_neg h2]
      exact get_tasks_add_job_fst d task.job
  · simp only [if_neg h1]
    by_cases h2 : task.job ∈ (add_resource d task.resource).jobs
    · simp only [if_pos h2]
      exact get_tasks_add_resource d task.resource
    · simp only [if_neg h2]
      rw [get_tasks_add_job_fst, get_tasks_add_resource]

theorem jobTaskList_register (d : JobShopData) (task : Task) (j : String) :
    jobTaskList (register_for_task d task) j = jobTaskList d j := by
  simp only [register_for_task]
  by_cases h1 : task.resource ∈ d.resources
  · simp only [if_pos h1]
    by_cases h2 : task.job ∈ d.jobs
    · simp only [if_pos h2]
    · simp only [if_neg h2]
      exact jobTaskList_add_job_fst d task.job j
  · simp only [if_neg h1]
    by_cases h2 : task.job ∈ (add_resource d task.resource).jobs
    · simp only [if_pos h2]
      exact jobTaskList_add_resource d task.resource j
    · simp only [if_neg h2]
      rw [jobTaskList_add_job_fst, jobTaskList_add_resource]

/-- C6 (amended): a mutation rejected by `add_task` with
`InvalidDurationError` or `InvalidPositionError` inserts no task — the
flattened task collection and every job's task list are unchanged —
but the instance is not left completely unchanged: the task's job and
resource, registered before the validity checks run, stay registered
(see the counterexample). -/
theorem c6_no_task_on_error (d : JobShopData) (task : Task) (position : Option Int)
    (e : PyError) (herr : (add_task d task position).2 = some e) :
    get_tasks (add_task d task position).1 = get_tasks d ∧
    ∀ j, jobTaskList (add_task d task position).1 j = jobTaskList d j := by
  cases position with
  | none =>
    simp only [add_task] at herr ⊢
    split_ifs at herr ⊢ <;>
      exact ⟨get_tasks_register d task, fun j => jobTaskList_register d task j⟩
  | some pos =>
    simp only [add_task] at herr ⊢
    split_ifs at herr ⊢ <;>
      exact ⟨get_tasks_register d task, fun j => jobTaskList_register d task j⟩

theorem c6_no_task_on_error_witness :
    get_tasks (add_task ⟨[], [], []⟩ ⟨"j", "r", -1⟩ none).1
      = get_tasks (⟨[], [], []⟩ : JobShopData) :=
  (c6_no_task_on_error ⟨[], [], []⟩ ⟨"j", "r", -1⟩ none
    (.invalidDuration (-1)) rfl).1

/-- C6 counterexample: adding a task with a negative duration to the
empty instance raises `InvalidDurationError` but does not leave the
instance unchanged — the task's previously unregistered job and
resource have been registered before the duration check ran. -/
theorem c6_counterexample_partial_mutation :
    (add_task ⟨[], [], []⟩ ⟨"j", "r", -1⟩ none).2
        = some (.invalidDuration (-1)) ∧
    (add_task ⟨[], [], []⟩ ⟨"j", "r", -1⟩ none).1.jobs = ["j"] ∧
    (add_task ⟨[], [], []⟩ ⟨"j", "r", -1⟩ none).1.resources = ["r"] ∧
    (add_task ⟨[], [], []⟩ ⟨"j", "r", -1⟩ none).1 ≠ ⟨[], [], []⟩ := by
  refine ⟨rfl, rfl, rfl, by decide⟩

/-- C7 (amended): for a registered resource and a registered job, when
the job's task sequence contains no task on the resource the lookup
fails with `IndexError` (from `[...][0]` on an empty comprehension) —
not with the designated "not in dataset" `ValueError` — and when the
filtered sequence is non-empty it returns its first element (the
unique operation when the job visits the resource at most once). -/
theorem c7_missing_resource_lookup (d : JobShopData) (resource job : String)
    (hr : resource ∈ d.resources) (hj : job ∈ d.jobs) :
    ((∀ t ∈ jobTaskList d job, t.resource ≠ resource) →
      get_resource_job_tasks d resource job = .error .indexError) ∧
    (∀ (t : Task) (rest : List Task),
      (jobTaskList d job).filter (fun x => decide (x.resource = resource))
          = t :: rest →
      get_resource_job_tasks d resource job = .ok t) := by
  constructor
  · intro hnone
    have hfil : (jobTaskList d job).filter
        (fun x => decide (x.resource = resource)) = [] :=
      List.filter_eq_nil_iff.mpr (fun t ht => by simp [hnone t ht])
    simp [get_resource_job_tasks, hr, hj, hfil]
  · intro t rest hfil
    simp [get_resource_job_tasks, hr, hj, hfil]

theorem c7_missing_resource_lookup_witness :
    get_resource_job_tasks
        (⟨["0"], ["r1", "r2"], [("0", [⟨"0", "r1", 3⟩])]⟩ : JobShopData) "r2" "0"
      = .error .indexError :=
  (c7_missing_resource_lookup _ "r2" "0" (by decide) (by decide)).1 (by decide)

/-- C7 counterexample: job `"0"` and resource `"r2"` are both
registered, job `"0"` never visits `"r2"`, and the lookup fails with
`IndexError`, which is not the designated `NotFoundError` (the
"not in dataset" `ValueError`s). -/
theorem c7_counterexample_index_error :
    get_resource_job_tasks
        (⟨["0"], ["r1", "r2"], [("0", [⟨"0", "r1", 3⟩])]⟩ : JobShopData) "r2" "0"
        = .error .indexError ∧
    "0" ∈ (⟨["0"], ["r1", "r2"], [("0", [⟨"0", "r1", 3⟩])]⟩ : JobShopData).jobs ∧
    "r2" ∈ (⟨["0"], ["r1", "r2"],
        [("0", [⟨"0", "r1", 3⟩])]⟩ : JobShopData).resources ∧
    PyError.isNotFound .indexError = false := by
  refine ⟨rfl, by decide, by decide, rfl⟩

theorem count_flatMap_eq {α β : Type} [DecidableEq β] (l : List α) (f : α → List β)
    (b : β) (a : α) (ha : a ∈ l) (hnd : l.Nodup)
    (hother : ∀ x ∈ l, x ≠ a → b ∉ f x) :
    (l.flatMap f).count b = (f a).count b := by
  induction l with
  | nil => cases ha
  | cons x l ih =>
    rw [List.flatMap_cons, List.count_append]
    rw [List.nodup_cons] at hnd
    rcases List.mem_cons.mp ha with h | h
    · subst h
      have hz : (l.flatMap f).count b = 0 := by
        refine List.count_eq_zero.mpr (fun hb => ?_)
        rcases List.mem_flatMap.mp hb with ⟨q, hq, hbq⟩
        have hqa : q ≠ a := fun hc => hnd.1 (hc ▸ hq)
        exact hother q (List.mem_cons_of_mem a hq) hqa hbq
      rw [hz, Nat.add_zero]
    · have hz : (f x).count b = 0 :=
        List.count_eq_zero.mpr
          (hother x (List.mem_cons_self x l) (fun hc => hnd.1 (hc ▸ h)))
      rw [hz, Nat.zero_add]
      exact ih h hnd.2 (fun q hq => hother q (List.mem_cons_of_mem x hq))

/-- C1: for distinct jobs `j < k` and a resource `i`, the builder adds
exactly one copy of each of the two big-M inequalities
`x[j,i] - x[k,i] - dur(k,i) + y*V >= 0` and
`x[k,i] - x[j,i] - dur(j,i) + (1-y)*V >= 0`, with `V` the makespan
bound `max_makespan`; and any assignment with binary `y[j,k,i]`
satisfying both constraints schedules jobs `j` and `k` without time
overlap on resource `i`. -/
theorem c1_disjunctive_bigM (jobs resources : List Nat) (dur : Nat → Nat → Int)
    (V : Int) (j k i : Nat)
    (hjn : jobs.Nodup) (hin : resources.Nodup)
    (hj : j ∈ jobs) (hk : k ∈ jobs) (hjk : j < k) (hi : i ∈ resources) :
    (add_disjunctive_constraints jobs resources dur V).count
        (DisjConstr.d1 j k i (dur k i) V) = 1 ∧
    (add_disjunctive_constraints jobs resources dur V).count
        (DisjConstr.d2 j k i (dur j i) V) = 1 ∧
    ∀ (x : Nat → Nat → Int) (y : Nat → Nat → Nat → Int),
      (y j k i = 0 ∨ y j k i = 1) →
      evalDisj x y (DisjConstr.d1 j k i (dur k i) V) →
      evalDisj x y (DisjConstr.d2 j k i (dur j i) V) →
      ¬ overlaps (x j i) (dur j i) (x k i) (dur k i) := by
  have hcount : ∀ c : DisjConstr,
      (∃ dk' V', c = DisjConstr.d1 j k i dk' V') ∨
      (∃ dj' V', c = DisjConstr.d2 j k i dj' V') →
      (add_disjunctive_constraints jobs resources dur V).count c
        = ([DisjConstr.d1 j k i (dur k i) V,
            DisjConstr.d2 j k i (dur j i) V] : List DisjConstr).count c := by
    intro c hc
    have step1 : (add_disjunctive_constraints jobs resources dur V).count c
        = (jobs.flatMap (fun k' =>
            if j < k' then
              resources.flatMap (fun i' =>
                [DisjConstr.d1 j k' i' (dur k' i') V,
                 DisjConstr.d2 j k' i' (dur j i') V])
            else [])).count c := by
      refine count_flatMap_eq jobs _ c j hj hjn ?_
      intro j' hj' hne hcmem
      rcases List.mem_flatMap.mp hcmem with ⟨k', hk', hmem⟩
      by_cases hlt : j' < k'
      · rw [if_pos hlt] at hmem
        rcases List.mem_flatMap.mp hmem with ⟨i', hi', hmem2⟩
        rcases hc with ⟨dk', V', rfl⟩ | ⟨dj', V', rfl⟩ <;>
          simp only [List.mem_cons, List.not_mem_nil, or_false,
            DisjConstr.d1.injEq, DisjConstr.d2.injEq] at hmem2 <;>
          rcases hmem2 with h' | h' <;> first
            | (exact hne h'.1.symm)
            | cases h'
      · rw [if_neg hlt] at hmem
        cases hmem
    rw [step1]
    have step2 : (jobs.flatMap (fun k' =>
        if j < k' then
          resources.flatMap (fun i' =>
            [DisjConstr.d1 j k' i' (dur k' i') V,
             DisjConstr.d2 j k' i' (dur j i') V])
        else [])).count c
        = (if j < k then
            resources.flatMap (fun i' =>
              [DisjConstr.d1 j k i' (dur k i') V,
               DisjConstr.d2 j k i' (dur j i') V])
          else ([] : List DisjConstr)).count c := by
      refine count_flatMap_eq jobs _ c k hk hjn ?_
      intro k' hk' hne hcmem
      by_cases hlt : j < k'
      · rw [if_pos hlt] at hcmem
        rcases List.mem_flatMap.mp hcmem with ⟨i', hi', hmem2⟩
        rcases hc with ⟨dk', V', rfl⟩ | ⟨dj', V', rfl⟩ <;>
          simp only [List.mem_cons, List.not_mem_nil, or_false,
            DisjConstr.d1.injEq, DisjConstr.d2.injEq] at hmem2 <;>
          rcases hmem2 with h' | h' <;> first
            | (exact hne h'.2.1.symm)
            | cases h'
      · rw [if_neg hlt] at hcmem
        cases hcmem
    rw [step2, if_pos hjk]
    refine count_flatMap_eq resources _ c i hi hin ?_
    intro i' hi' hne hcmem
    rcases hc with ⟨dk', V', rfl⟩ | ⟨dj', V', rfl⟩ <;>
      simp only [List.mem_cons, List.not_mem_nil, or_false,
        DisjConstr.d1.injEq, DisjConstr.d2.injEq] at hcmem <;>
      rcases hcmem with h' | h' <;> first
        | (exact hne h'.2.2.1.symm)
        | cases h'
  refine ⟨?_, ?_, ?_⟩
  · rw [hcount _ (Or.inl ⟨dur k i, V, rfl⟩)]
    simp [List.count_cons]
  · rw [hcount _ (Or.inr ⟨dur j i, V, rfl⟩)]
    simp [List.count_cons]
  · intro x y hy h1 h2
    simp only [evalDisj] at h1 h2
    intro hov
    rw [overlaps, max_lt_iff] at hov
    obtain ⟨ha, hb⟩ := hov
    rw [lt_min_iff] at ha hb
    rcases hy with h0 | h0 <;> rw [h0] at h1 h2 <;> linarith [ha.1, ha.2, hb.1, hb.2]

theorem c1_disjunctive_bigM_witness :
    (add_disjunctive_constraints [0, 1] [0] (fun _ _ => 3) 50).count
        (DisjConstr.d1 0 1 0 3 50) = 1 :=
  (c1_disjunctive_bigM [0, 1] [0] (fun _ _ => 3) 50 0 1 0
    (by decide) (by decide) (by decide) (by decide) (by decide) (by decide)).1

theorem tasks_overlap_symm (si fi sj fj : Int) :
    tasks_overlap si fi sj fj = tasks_overlap sj fj si fi := by
  unfold tasks_overlap
  split_ifs with h1 h2 h3 <;> rw [decide_eq_decide] <;> omega

theorem tasks_overlap_pos_iff (si fi sj fj : Int) (h1 : si < fi) (h2 : sj < fj) :
    (tasks_overlap si fi sj fj = true ↔ max si sj < min fi fj) := by
  unfold tasks_overlap
  split_ifs with h <;> simp only [decide_eq_true_eq] <;> omega

theorem apply_pair_length (rows : List SRow) (i j : Nat) :
    (apply_pair rows i j).length = rows.length := by
  rw [apply_pair]
  cases h1 : rows[i]? with
  | none => rfl
  | some ri =>
    cases h2 : rows[j]? with
    | none => rfl
    | some rj =>
      dsimp only
      split_ifs with hc
      · rw [List.length_set, List.length_set]
      · rfl

theorem foldPairs_length (rows : List SRow) (ps : List (Nat × Nat)) :
    (foldPairs rows ps).length = rows.length := by
  induction ps generalizing rows with
  | nil => rfl
  | cons p ps ih =>
    have hstep : foldPairs rows (p :: ps) = foldPairs (apply_pair rows p.1 p.2) ps :=
      rfl
    rw [hstep, ih, apply_pair_length]

theorem apply_pair_shape (rows : List SRow) (i j k : Nat) :
    shape ((apply_pair rows i j).getD k default) = shape (rows.getD k default) := by
  rw [apply_pair]
  cases h1 : rows[i]? with
  | none => rfl
  | some ri =>
    cases h2 : rows[j]? with
    | none => rfl
    | some rj =>
      dsimp only
      split_ifs with hc
      · have hi : i < rows.length := (List.getElem?_eq_some.mp h1).1
        have hj : j < rows.length := (List.getElem?_eq_some.mp h2).1
        rw [List.getD_eq_getElem?_getD, List.getD_eq_getElem?_getD]
        by_cases hjk : j = k
        · subst hjk
          rw [List.getElem?_set_eq_of_lt _ (by simpa using hj), h2]
          rfl
        · rw [List.getElem?_set_ne hjk]
          by_cases hik : i = k
          · subst hik
            rw [List.getElem?_set_eq_of_lt _ hi, h1]
            rfl
          · rw [List.getElem?_set_ne hik]
      · rfl

theorem foldPairs_shape (ps : List (Nat × Nat)) (rows : List SRow) (k : Nat) :
    shape ((foldPairs rows ps).getD k default) = shape (rows.getD k default) := by
  induction ps generalizing rows with
  | nil => rfl
  | cons p ps ih =>
    have hstep : foldPairs rows (p :: ps) = foldPairs (apply_pair rows p.1 p.2) ps :=
      rfl
    rw [hstep, ih, apply_pair_shape]

theorem pairCond_apply_pair (rows : List SRow) (p q i j : Nat) :
    pairCond (apply_pair rows p q) i j ↔ pairCond rows i j := by
  unfold pairCond
  rw [apply_pair_length]
  have si := apply_pair_shape rows p q i
  have sj := apply_pair_shape rows p q j
  simp only [shape, Prod.mk.injEq] at si sj
  rw [si.2.1, si.2.2.1, si.2.2.2, sj.2.1, sj.2.2.1, sj.2.2.2]

theorem apply_pair_conflicts (rows : List SRow) (i j k : Nat) :
    (((apply_pair rows i j).getD k default).conflicts = true ↔
      ((rows.getD k default).conflicts = true ∨
        ((k = i ∨ k = j) ∧ pairCond rows i j))) := by
  rw [apply_pair]
  cases h1 : rows[i]? with
  | none =>
    have hi : rows.length ≤ i := List.getElem?_eq_none_iff.mp h1
    constructor
    · exact fun h => Or.inl h
    · rintro (h | ⟨_, hpc, _⟩)
      · exact h
      · omega
  | some ri =>
    cases h2 : rows[j]? with
    | none =>
      have hj : rows.length ≤ j := List.getElem?_eq_none_iff.mp h2
      constructor
      · exact fun h => Or.inl h
      · rintro (h | ⟨_, _, hpc, _⟩)
        · exact h
        · omega
    | some rj =>
      have hi : i < rows.length := (List.getElem?_eq_some.mp h1).1
      have hj : j < rows.length := (List.getElem?_eq_some.mp h2).1
      have hgi : rows.getD i default = ri := by
        rw [List.getD_eq_getElem?_getD, h1]; rfl
      have hgj : rows.getD j default = rj := by
        rw [List.getD_eq_getElem?_getD, h2]; rfl
      dsimp only
      split_ifs with hc
      · have hpc : pairCond rows i j := by
          refine ⟨hi, hj, ?_, ?_⟩
          · rw [hgi, hgj]; exact hc.1
          · rw [hgi, hgj]; exact hc.2
        by_cases hkj : k = j
        · have hval : ((rows.set i { ri with conflicts := true }).set j
              { rj with conflicts := true })[k]? = some { rj with conflicts := true } := by
            rw [hkj]
            exact List.getElem?_set_eq_of_lt _ (by simpa using hj)
          rw [List.getD_eq_getElem?_getD, hval]
          constructor
          · intro _
            exact Or.inr ⟨Or.inr hkj, hpc⟩
          · intro _
            rfl
        · by_cases hki : k = i
          · have hval : ((rows.set i { ri with conflicts := true }).set j
                { rj with conflicts := true })[k]? = some { ri with conflicts := true } := by
              rw [List.getElem?_set_ne (fun h => hkj h.symm), hki]
              exact List.getElem?_set_eq_of_lt _ hi
            rw [List.getD_eq_getElem?_getD, hval]
            constructor
            · intro _
              exact Or.inr ⟨Or.inl hki, hpc⟩
            · intro _
              rfl
          · have hval : ((rows.set i { ri with conflicts := true }).set j
                { rj with conflicts := true })[k]? = rows[k]? := by
              rw [List.getElem?_set_ne (fun h => hkj h.symm),
                List.getElem?_set_ne (fun h => hki h.symm)]
            rw [List.getD_eq_getElem?_getD, hval, ← List.getD_eq_getElem?_getD]
            constructor
            · exact fun h => Or.inl h
            · rintro (h | ⟨hk', _⟩)
              · exact h
              · rcases hk' with h' | h'
                · exact absurd h' hki
                · exact absurd h' hkj
      · constructor
        · exact fun h => Or.inl h
        · rintro (h | ⟨_, hpc⟩)
          · exact h
          · exfalso
            obtain ⟨hpi, hpj, hres, hov⟩ := hpc
            rw [hgi, hgj] at hres hov
            exact hc ⟨hres, hov⟩

theorem foldPairs_conflicts (ps : List (Nat × Nat)) (rows : List SRow) (k : Nat) :
    (((foldPairs rows ps).getD k default).conflicts = true ↔
      ((rows.getD k default).conflicts = true ∨
        ∃ p ∈ ps, (k = p.1 ∨ k = p.2) ∧ pairCond rows p.1 p.2)) := by
  induction ps generalizing rows with
  | nil => simp [foldPairs]
  | cons p ps ih =>
    have hstep : foldPairs rows (p :: ps) = foldPairs (apply_pair rows p.1 p.2) ps :=
      rfl
    rw [hstep, ih, apply_pair_conflicts]
    simp only [pairCond_apply_pair, List.exists_mem_cons_iff]
    constructor
    · rintro ((h | hp) | ⟨q, hq, hkq, hpc⟩)
      · exact Or.inl h
      · exact Or.inr (Or.inl hp)
      · exact Or.inr (Or.inr ⟨q, hq, hkq, hpc⟩)
    · rintro (h | (hp | ⟨q, hq, hkq, hpc⟩))
      · exact Or.inl (Or.inl h)
      · exact Or.inl (Or.inr hp)
      · exact Or.inr ⟨q, hq, hkq, hpc⟩

theorem foldl_flatMap {α β γ : Type} (l : List α) (f : α → List β) (g : γ → β → γ)
    (a : γ) :
    (l.flatMap f).foldl g a = l.foldl (fun acc x => (f x).foldl g acc) a := by
  induction l generalizing a with
  | nil => rfl
  | cons x l ih => rw [List.flatMap_cons, List.foldl_append, List.foldl_cons, ih]

theorem calculate_conflicts_eq (rows : List SRow) :
    calculate_conflicts rows = foldPairs rows (all_pairs rows.length) := by
  rw [calculate_conflicts, foldPairs, all_pairs, foldl_flatMap]
  simp only [List.foldl_map]

theorem mem_all_pairs (n : Nat) (p : Nat × Nat) :
    p ∈ all_pairs n ↔ p.1 < p.2 ∧ p.2 < n := by
  cases p with
  | mk i j =>
    simp only [all_pairs, List.mem_flatMap, List.mem_map, List.mem_range]
    constructor
    · rintro ⟨i', hi', dj, hdj, heq⟩
      cases heq
      constructor <;> omega
    · rintro ⟨hij, hjn⟩
      refine ⟨i, by omega, j - i - 1, by omega, ?_⟩
      simp only [Prod.mk.injEq]
      exact ⟨trivial, by omega⟩

/-- C5 (amended): the conflict analyzer preserves every field of every
row except the `Conflicts` flag, and flags row `k` exactly when it was
already flagged or some other row on the same resource passes the
`tasks_overlap` test against it.  `tasks_overlap` sorts the two
`(start, finish)` pairs lexicographically and tests whether the later
start precedes the earlier finish: it is symmetric, and it coincides
with the spec's `max(start_i, start_j) < min(finish_i, finish_j)`
whenever both rows have positive length (`start < finish`), but not
for zero-duration rows (see the counterexample). -/
theorem c5_conflict_marking (rows : List SRow) (k : Nat) (hk : k < rows.length) :
    shape ((calculate_conflicts rows).getD k default) = shape (rows.getD k default) ∧
    (((calculate_conflicts rows).getD k default).conflicts = true ↔
      ((rows.getD k default).conflicts = true ∨
        ∃ l, l < rows.length ∧ l ≠ k ∧
          (rows.getD l default).resource = (rows.getD k default).resource ∧
          tasks_overlap (rows.getD k default).start (rows.getD k default).finish
            (rows.getD l default).start (rows.getD l default).finish = true)) ∧
    (∀ si fi sj fj : Int, si < fi → sj < fj →
      (tasks_overlap si fi sj fj = true ↔ max si sj < min fi fj)) ∧
    (∀ si fi sj fj : Int, tasks_overlap si fi sj fj = tasks_overlap sj fj si fi) := by
  refine ⟨?_, ?_, fun a b c d h1 h2 => tasks_overlap_pos_iff a b c d h1 h2,
    fun a b c d => tasks_overlap_symm a b c d⟩
  · rw [calculate_conflicts_eq]
    exact foldPairs_shape _ rows k
  · rw [calculate_conflicts_eq, foldPairs_conflicts]
    constructor
    · rintro (h | ⟨⟨i, j⟩, hp, hkp, hi, hj, hres, hov⟩)
      · exact Or.inl h
      · rw [mem_all_pairs] at hp
        right
        rcases hkp with hki | hkj
        · subst hki
          exact ⟨j, hj, by omega, hres.symm, hov⟩
        · subst hkj
          refine ⟨i, by omega, by omega, hres, ?_⟩
          rw [tasks_overlap_symm]
          exact hov
    · rintro (h | ⟨l, hl, hlk, hres, hov⟩)
      · exact Or.inl h
      · right
        rcases Nat.lt_or_ge k l with hkl | hlk'
        · refine ⟨(k, l), ?_, Or.inl rfl, hk, hl, hres.symm, ?_⟩
          · rw [mem_all_pairs]
            exact ⟨hkl, hl⟩
          · exact hov
        · have hlk2 : l < k := by omega
          refine ⟨(l, k), ?_, Or.inr rfl, hl, hk, hres, ?_⟩
          · rw [mem_all_pairs]
            exact ⟨hlk2, hk⟩
          · rw [tasks_overlap_symm]
            exact hov

theorem c5_conflict_marking_witness :
    shape ((calculate_conflicts
        [⟨"0", 0, 5, "r1", false⟩, ⟨"1", 2, 2, "r1", false⟩]).getD 0 default)
      = shape (([⟨"0", 0, 5, "r1", false⟩,
          ⟨"1", 2, 2, "r1", false⟩] : List SRow).getD 0 default) :=
  (c5_conflict_marking _ 0 (by decide)).1

/-- C5 counterexample: through the full `get_minimum_task_times`
pipeline, job `"1"` has a zero-duration task on `"r1"` starting at
time 2 inside job `"0"`'s interval `[0, 5)` on `"r1"`.  The analyzer
flags both rows as conflicting although the spec's test
`max(start_i, start_j) < min(finish_i, finish_j)` (here `2 < 2`) is
false, so the claimed "if and only if" fails. -/
theorem c5_counterexample_zero_duration :
    (((get_minimum_task_times
        [("0", [⟨"0", "r1", 5⟩]), ("1", [⟨"1", "r2", 2⟩, ⟨"1", "r1", 0⟩])]).getD
        0 default).conflicts = true) ∧
    (((get_minimum_task_times
        [("0", [⟨"0", "r1", 5⟩]), ("1", [⟨"1", "r2", 2⟩, ⟨"1", "r1", 0⟩])]).getD
        2 default).conflicts = true) ∧
    (((get_minimum_task_times
        [("0", [⟨"0", "r1", 5⟩]), ("1", [⟨"1", "r2", 2⟩, ⟨"1", "r1", 0⟩])]).getD
        0 default).resource
      = ((get_minimum_task_times
        [("0", [⟨"0", "r1", 5⟩]), ("1", [⟨"1", "r2", 2⟩, ⟨"1", "r1", 0⟩])]).getD
        2 default).resource) ∧
    ¬ (max ((get_minimum_task_times
        [("0", [⟨"0", "r1", 5⟩]), ("1", [⟨"1", "r2", 2⟩, ⟨"1", "r1", 0⟩])]).getD
        0 default).start
        ((get_minimum_task_times
        [("0", [⟨"0", "r1", 5⟩]), ("1", [⟨"1", "r2", 2⟩, ⟨"1", "r1", 0⟩])]).getD
        2 default).start
      < min ((get_minimum_task_times
        [("0", [⟨"0", "r1", 5⟩]), ("1", [⟨"1", "r2", 2⟩, ⟨"1", "r1", 0⟩])]).getD
        0 default).finish
        ((get_minimum_task_times
        [("0", [⟨"0", "r1", 5⟩]), ("1", [⟨"1", "r2", 2⟩, ⟨"1", "r1", 0⟩])]).getD
        2 default).finish) := by
  decide

theorem foldl_range_succ {α : Type} (f : α → Nat → α) (a : α) (n : Nat) :
    (List.range (n + 1)).foldl f a = f ((List.range n).foldl f a) n := by
  rw [List.range_succ, List.foldl_append, List.foldl_cons, List.foldl_nil]

theorem getD_append_singleton {α : Type} (l : List α) (x d : α) (n : Nat)
    (h : n = l.length) : (l ++ [x]).getD n d = x := by
  subst h
  induction l with
  | nil => rfl
  | cons y l ih => simp [ih]

theorem fss_row_upto_succ (t : List (List Nat)) (o : List Nat)
    (e : List (List Nat)) (m n : Nat) :
    fss_row_upto t o e m (n + 1) = fss_job_step t o e m (fss_row_upto t o e m n) n :=
  foldl_range_succ _ _ n

theorem fss_job_step_append (t : List (List Nat)) (o : List Nat)
    (e : List (List Nat)) (m : Nat) (mmt : List Nat) (j : Nat) :
    ∃ v, fss_job_step t o e m mmt j = mmt ++ [v] := by
  rw [fss_job_step]
  split_ifs <;> exact ⟨_, rfl⟩

theorem fss_row_upto_len (t : List (List Nat)) (o : List Nat)
    (e : List (List Nat)) (m n : Nat) : (fss_row_upto t o e m n).length = n := by
  induction n with
  | zero => rfl
  | succ n ih =>
    rw [fss_row_upto_succ]
    obtain ⟨v, hv⟩ := fss_job_step_append t o e m (fss_row_upto t o e m n) n
    rw [hv, List.length_append, ih]
    rfl

theorem fss_row_upto_getD_stable (t : List (List Nat)) (o : List Nat)
    (e : List (List Nat)) (m j n : Nat) (hjn : j < n) :
    (fss_row_upto t o e m n).getD j 0 = (fss_row_upto t o e m (j + 1)).getD j 0 := by
  induction n with
  | zero => omega
  | succ n ih =>
    rcases Nat.lt_or_ge j n with h | h
    · rw [fss_row_upto_succ]
      obtain ⟨v, hv⟩ := fss_job_step_append t o e m (fss_row_upto t o e m n) n
      rw [hv, List.getD_eq_getElem?_getD,
        List.getElem?_append_left (by rw [fss_row_upto_len]; exact h),
        ← List.getD_eq_getElem?_getD]
      exact ih h
    · have hj : j = n := by omega
      subst hj
      rfl

theorem fss_row_upto_getLastD (t : List (List Nat)) (o : List Nat)
    (e : List (List Nat)) (m j : Nat) (hj : j ≠ 0) :
    (fss_row_upto t o e m j).getLastD 0 = (fss_row_upto t o e m j).getD (j - 1) 0 := by
  obtain ⟨s, rfl⟩ := Nat.exists_eq_succ_of_ne_zero hj
  rw [fss_row_upto_succ]
  obtain ⟨v, hv⟩ := fss_job_step_append t o e m (fss_row_upto t o e m s) s
  rw [hv, List.getLastD_concat, Nat.succ_sub_one,
    getD_append_singleton _ _ _ s (fss_row_upto_len t o e m s).symm]

theorem fss_row_val (t : List (List Nat)) (o : List Nat) (e : List (List Nat))
    (m j : Nat) :
    (fss_row_upto t o e m (j + 1)).getD j 0 =
      max (if m = 0 then 0 else (e.getD (m - 1) []).getD j 0)
          (if j = 0 then 0 else (fss_row_upto t o e m j).getD (j - 1) 0)
        + tA t m (ordA o j) := by
  rw [fss_row_upto_succ, fss_job_step]
  by_cases hm : m = 0
  · rw [if_pos hm, if_pos hm]
    by_cases hj : j = 0
    · subst hj
      rw [if_pos rfl, if_pos rfl,
        getD_append_singleton _ _ _ 0 (fss_row_upto_len t o e m 0).symm]
      omega
    · rw [if_neg hj, if_neg hj,
        getD_append_singleton _ _ _ j (fss_row_upto_len t o e m j).symm,
        fss_row_upto_getLastD t o e m j hj]
      omega
  · rw [if_neg hm, if_neg hm]
    by_cases hj : j = 0
    · subst hj
      rw [if_pos rfl, if_pos rfl,
        getD_append_singleton _ _ _ 0 (fss_row_upto_len t o e m 0).symm]
      omega
    · rw [if_neg hj, if_neg hj,
        getD_append_singleton _ _ _ j (fss_row_upto_len t o e m j).symm,
        fss_row_upto_getLastD t o e m j hj]

theorem fss_upto_succ (t : List (List Nat)) (o : List Nat) (k : Nat) :
    fss_upto t o (k + 1) = fss_upto t o k ++
      [fss_row_upto t o (fss_upto t o k) k ((t.headD []).length)] :=
  foldl_range_succ _ _ k

theorem fss_upto_len (t : List (List Nat)) (o : List Nat) (k : Nat) :
    (fss_upto t o k).length = k := by
  induction k with
  | zero => rfl
  | succ k ih =>
    rw [fss_upto_succ, List.length_append, ih]
    rfl

theorem fss_upto_getD_stable (t : List (List Nat)) (o : List Nat) (m k : Nat)
    (hmk : m < k) :
    (fss_upto t o k).getD m [] = (fss_upto t o (m + 1)).getD m [] := by
  induction k with
  | zero => omega
  | succ k ih =>
    rcases Nat.lt_or_ge m k with h | h
    · rw [fss_upto_succ, List.getD_eq_getElem?_getD,
        List.getElem?_append_left (by rw [fss_upto_len]; exact h),
        ← List.getD_eq_getElem?_getD]
      exact ih h
    · have hm : m = k := by omega
      subst hm
      rfl

/-- C3: the end-time matrix computed by the order-based strategy
satisfies the classical flow-shop recurrence
`end[m][j] = max(end[m-1][j], end[m][j-1]) + times[m][order[j]]`, with
the out-of-range terms `end[-1][j]` and `end[m][-1]` read as 0. -/
theorem c3_end_times_recurrence (times : List (List Nat)) (order : List Nat)
    (m j : Nat) (hm : m < times.length) (hj : j < (times.headD []).length) :
    fss_entry times order m j
      = max (if m = 0 then 0 else fss_entry times order (m - 1) j)
            (if j = 0 then 0 else fss_entry times order m (j - 1))
        + tA times m (ordA order j) := by
  have hrow : ∀ m' : Nat, m' < times.length →
      (calculate_end_times times order).getD m' []
        = fss_row_upto times order (fss_upto times order m') m'
            ((times.headD []).length) := by
    intro m' hm'
    rw [calculate_end_times, fss_upto_getD_stable times order m' times.length hm',
      fss_upto_succ,
      getD_append_singleton _ _ _ m' (fss_upto_len times order m').symm]
  have hentry : ∀ j' : Nat, j' < (times.headD []).length →
      fss_entry times order m j'
        = (fss_row_upto times order (fss_upto times order m) m (j' + 1)).getD j' 0 := by
    intro j' hj'
    rw [fss_entry, hrow m hm,
      fss_row_upto_getD_stable times order (fss_upto times order m) m j' _ hj']
  rw [hentry j hj, fss_row_val]
  have hA : (if m = 0 then 0
        else ((fss_upto times order m).getD (m - 1) []).getD j 0)
      = (if m = 0 then 0 else fss_entry times order (m - 1) j) := by
    by_cases hm0 : m = 0
    · rw [if_pos hm0, if_pos hm0]
    · rw [if_neg hm0, if_neg hm0]
      have hstab1 := fss_upto_getD_stable times order (m - 1) m (by omega)
      have hstab2 :=
        fss_upto_getD_stable times order (m - 1) times.length (by omega)
      rw [fss_entry, calculate_end_times, hstab2, ← hstab1]
  have hB : (if j = 0 then 0
        else (fss_row_upto times order (fss_upto times order m) m j).getD (j - 1) 0)
      = (if j = 0 then 0 else fss_entry times order m (j - 1)) := by
    by_cases hj0 : j = 0
    · rw [if_pos hj0, if_pos hj0]
    · rw [if_neg hj0, if_neg hj0]
      have he := hentry (j - 1) (by omega)
      have hjj : j - 1 + 1 = j := by omega
      rw [hjj] at he
      rw [he]
  rw [hA, hB]

theorem c3_end_times_recurrence_witness :
    fss_entry [[3, 2], [2, 4]] [1, 0] 1 1
      = max (if (1 : Nat) = 0 then 0 else fss_entry [[3, 2], [2, 4]] [1, 0] 0 1)
            (if (1 : Nat) = 0 then 0 else fss_entry [[3, 2], [2, 4]] [1, 0] 1 0)
        + tA [[3, 2], [2, 4]] 1 (ordA [1, 0] 1) :=
  c3_end_times_recurrence [[3, 2], [2, 4]] [1, 0] 1 1 (by decide) (by decide)

end JSS

